import Mathlib

/-!
# Verification of the Coffee_Predictions forecasting core

A shallow embedding of the repository's feature-engineering and
forecast-generation subsystem, together with theorems settling the
specification claims about it.

Source files embedded:
* `src/utils/db.py` — schema created by `init_database`;
* `src/utils/dates.py` — `get_date_range`;
* `src/features/build_features.py` — `build_features`;
* `src/models/train.py` — `_get_model`, `train_model` (selection and metrics);
* `src/models/predict.py` — `generate_forecasts`;
* `src/ingest/load_sales.py` — column lists of the ingestion statements and
  `load_sales_data`.

Numeric quantities are modelled as rationals (the Python code uses floats;
the claims under study concern which values are selected and averaged, not
floating-point rounding).  Dates are modelled structurally as
year/month/day triples; `pd.to_datetime` on canonical `YYYY-MM-DD` strings
and the final `strftime` re-serialization are order- and value-faithful to
this model.
-/

/-! ## Calendar model (`src/utils/dates.py`, pandas `.dt` accessors) -/

/-- A calendar date, `YYYY-MM-DD`. -/
structure Date where
  year : Nat
  month : Nat
  day : Nat
deriving DecidableEq, Repr, Inhabited

/-- Gregorian leap-year test. -/
def isLeap (y : Nat) : Bool :=
  y % 4 == 0 && (y % 100 != 0 || y % 400 == 0)

/-- Days in a month of a given year. -/
def daysInMonth (y m : Nat) : Nat :=
  if m == 2 then (if isLeap y then 29 else 28)
  else if m == 4 || m == 6 || m == 9 || m == 11 then 30
  else 31

/-- The next calendar day (`datetime + timedelta(days=1)`). -/
def Date.next (dt : Date) : Date :=
  if dt.day < daysInMonth dt.year dt.month then
    ⟨dt.year, dt.month, dt.day + 1⟩
  else if dt.month < 12 then
    ⟨dt.year, dt.month + 1, 1⟩
  else
    ⟨dt.year + 1, 1, 1⟩

/-- Day of week with Monday = 0 .. Sunday = 6 (pandas `dt.dayofweek`),
computed by Zeller's congruence. -/
def dayOfWeek (dt : Date) : Nat :=
  let m := if dt.month ≤ 2 then dt.month + 12 else dt.month
  let y := if dt.month ≤ 2 then dt.year - 1 else dt.year
  let K := y % 100
  let J := y / 100
  let h := (dt.day + (13 * (m + 1)) / 5 + K + K / 4 + J / 4 + 5 * J) % 7
  (h + 5) % 7

/-- Strict calendar order on dates (the order `pd.to_datetime` induces on
canonical date strings). -/
def dateLt (a b : Date) : Prop :=
  a.year < b.year ∨ (a.year = b.year ∧
    (a.month < b.month ∨ (a.month = b.month ∧ a.day < b.day)))

instance (a b : Date) : Decidable (dateLt a b) := by
  unfold dateLt; infer_instance

/-- `get_date_range(start_date, days)` from `src/utils/dates.py`: the list
of `days` consecutive dates starting at `start_date`. -/
def get_date_range (start : Date) : Nat → List Date
  | 0 => []
  | n + 1 => start :: get_date_range start.next n

/-! ## Persisted schema (`src/utils/db.py`, `src/ingest/load_sales.py`) -/

/-- Columns of the `daily_item_sales` table as created by `init_database`
(`src/utils/db.py` lines 38–46). -/
def init_daily_item_sales_columns : List String :=
  ["date", "item_id", "quantity"]

/-- Columns named by the `INSERT OR REPLACE INTO daily_item_sales` statement
executed by `preprocess_hipos_file` (`src/ingest/load_sales.py` line 203)
and by `create_sample_data` (line 313). -/
def ingest_daily_item_sales_columns : List String :=
  ["date", "item_id", "quantity", "promotion_discount", "is_holiday"]

/-- Columns referenced by the `SELECT` of `load_sales_data`
(`src/ingest/load_sales.py` line 230): `promotion_discount` and
`is_holiday` appear under `COALESCE`. -/
def load_sales_referenced_columns : List String :=
  ["date", "item_id", "quantity", "promotion_discount", "is_holiday"]

/-- Columns the specification attributes to the created `daily_item_sales`
relation. -/
def spec_daily_item_sales_columns : List String :=
  ["date", "item_id", "quantity", "promotion_discount", "is_holiday"]

/-- An SQL statement naming columns executes against a table schema only
when every named column exists in the schema. -/
def sqlColumnsOk (schema cols : List String) : Bool :=
  cols.all (fun c => schema.contains c)

/-! ## Sales rows and tables -/

/-- A row of the daily sales history handed to the core (columns of
`daily_item_sales` as read by `load_sales_data`).  `promotion_discount` and
`is_holiday` are optional: the store may hold NULLs and input frames may
hold missing values, which the code fills with 0. -/
structure SRow where
  date : Date
  item_id : Int
  quantity : ℚ
  promotion_discount : Option ℚ
  is_holiday : Option Int
deriving DecidableEq, Repr, Inhabited

/-- A sales-history table: its rows plus which of the two optional columns
are present (`"promotion_discount" in sales_df.columns` and likewise for
`is_holiday`, `build_features.py` lines 51–54). -/
structure SalesTable where
  rows : List SRow
  hasPromo : Bool
  hasHoliday : Bool
deriving DecidableEq, Repr, Inhabited

/-- The configuration surface consumed by the embedded core:
`model.type` and `forecast.horizon`.  (`build_features` receives the
configuration but does not read it, exactly as in the source.) -/
structure Config where
  modelType : String
  horizon : Nat
deriving DecidableEq, Repr, Inhabited

/-! ## Stable sorting (pandas `sort_values` uses a stable lexicographic
sort when given a list of keys) -/

/-- Insert `x` into `l` after every element strictly below it; equal
elements stay in front of `x`, which makes the sort stable. -/
def insertSorted (lt : α → α → Bool) (x : α) : List α → List α
  | [] => [x]
  | e :: es => if lt e x then e :: insertSorted lt x es else x :: e :: es

/-- Stable insertion sort. -/
def stableSort (lt : α → α → Bool) : List α → List α
  | [] => []
  | x :: xs => insertSorted lt x (stableSort lt xs)

/-- Strict date order on rows, as a Bool. -/
def rowDateLt (a b : SRow) : Bool := decide (dateLt a.date b.date)

/-- Strict lexicographic (item_id, date) order on rows: the key order of
`sales_df.sort_values(["item_id", "date"])` (`build_features.py` line 47). -/
def rowKeyLt (a b : SRow) : Bool :=
  decide (a.item_id < b.item_id) ||
    (decide (a.item_id = b.item_id) && decide (dateLt a.date b.date))

/-! ## Feature rows (`build_features.py`) -/

/-- A row of the feature table produced by `build_features`. -/
structure FeatRow where
  date : Date
  item_id : Int
  quantity : ℚ
  promotion_discount : ℚ
  is_holiday : Int
  day_of_week : Nat
  month : Nat
  lag_1 : ℚ
  lag_7 : ℚ
  rolling_7 : ℚ
  rolling_28 : ℚ
deriving DecidableEq, Repr, Inhabited

/-- `groupby("item_id")["quantity"].shift(k).fillna(0)` evaluated at one
row: the k-th most recent quantity among the same item's earlier rows
`h`, or 0 when fewer than `k` exist. -/
def lagOf (h : List ℚ) (k : Nat) : ℚ :=
  if k ≤ h.length then h.getD (h.length - k) 0 else 0

/-- Arithmetic mean of a window; an empty window yields 0 (the `fillna(0)`
applied after the rolling mean). -/
def windowMean (w : List ℚ) : ℚ :=
  if w.length = 0 then 0 else w.sum / (w.length : ℚ)

/-- `rolling(window=w, min_periods=1).mean()` evaluated at one row: the
mean of the trailing `w` elements of the item's quantities up to and
including the current row. -/
def rollOf (h : List ℚ) (w : Nat) : ℚ :=
  windowMean (h.drop (h.length - w))

/-- One feature row: `h` is the same item's earlier quantity sequence in
chronological order.  Mirrors the column assignments of
`build_features.py` lines 58–92 at a single row. -/
def featRowOf (hasPromo hasHoliday : Bool) (h : List ℚ) (r : SRow) : FeatRow :=
  { date := r.date
    item_id := r.item_id
    quantity := r.quantity
    promotion_discount := if hasPromo then r.promotion_discount.getD 0 else 0
    is_holiday := if hasHoliday then r.is_holiday.getD 0 else 0
    day_of_week := dayOfWeek r.date
    month := r.date.month
    lag_1 := lagOf h 1
    lag_7 := lagOf h 7
    rolling_7 := rollOf (h ++ [r.quantity]) 7
    rolling_28 := rollOf (h ++ [r.quantity]) 28 }

/-- Row-wise evaluation of the grouped column computations: `hist j` is the
quantity sequence of item `j` seen so far (pandas computes each grouped
column at a row from exactly this per-item prefix). -/
def buildLoop (hasPromo hasHoliday : Bool) (hist : Int → List ℚ) :
    List SRow → List FeatRow
  | [] => []
  | r :: rs =>
    featRowOf hasPromo hasHoliday (hist r.item_id) r ::
      buildLoop hasPromo hasHoliday
        (fun j => if j = r.item_id then hist j ++ [r.quantity] else hist j) rs

/-- `build_features(sales_df, config)` (`build_features.py`): empty input
yields the empty feature table; otherwise rows are sorted by
(item_id, date) and the lag, rolling, calendar and exogenous columns are
derived.  The configuration is accepted and ignored, as in the source. -/
def build_features (T : SalesTable) (_cfg : Config) : List FeatRow :=
  if T.rows.isEmpty then []
  else buildLoop T.hasPromo T.hasHoliday (fun _ => []) (stableSort rowKeyLt T.rows)

/-- The quantity sequence of item `k`'s rows of `T`, sorted by date
ascending: the item's sales history as the claims phrase it. -/
def dateSortedHistory (T : SalesTable) (k : Int) : List ℚ :=
  (stableSort rowDateLt (T.rows.filter (fun r => decide (r.item_id = k)))).map
    (fun r => r.quantity)

/-- Feature rows of one item's chronological history: `h` is the quantity
prefix already seen, and each row extends it.  (Helper used to state what
the grouped column computations do to a single item.) -/
def mapWithHist (hasPromo hasHoliday : Bool) (h : List ℚ) :
    List SRow → List FeatRow
  | [] => []
  | r :: rs =>
    featRowOf hasPromo hasHoliday h r ::
      mapWithHist hasPromo hasHoliday (h ++ [r.quantity]) rs

/-! ## Model selection and training (`src/models/train.py`) -/

/-- The three regressor families `_get_model` can construct. -/
inductive ModelKind where
  | catboost
  | lightgbm
  | randomForest
deriving DecidableEq, Repr

/-- Which ML libraries imported successfully at module load
(`CATBOOST_AVAILABLE`, `LIGHTGBM_AVAILABLE`, `SKLEARN_AVAILABLE`). -/
structure Availability where
  catboost : Bool
  lightgbm : Bool
  sklearn : Bool
deriving DecidableEq, Repr

/-- The canonical name of a model family, for comparing a family against
the `model_type` string recorded in metrics. -/
def modelKindName : ModelKind → String
  | .catboost => "catboost"
  | .lightgbm => "lightgbm"
  | .randomForest => "randomforest"

/-- Python's `str.lower()` on the ASCII strings the configuration uses. -/
def asciiLower (s : String) : String :=
  ⟨s.data.map (fun c =>
    if 65 ≤ c.toNat ∧ c.toNat ≤ 90 then Char.ofNat (c.toNat + 32) else c)⟩

/-- `_get_model(config)` (`train.py` lines 34–46): dispatch on the
lower-cased configured type and the library availability flags; raising
`ImportError` is modelled as `Except.error`. -/
def getModel (av : Availability) (cfg : Config) : Except String ModelKind :=
  let model_type := asciiLower cfg.modelType
  if model_type == "catboost" && av.catboost then .ok .catboost
  else if model_type == "lightgbm" && av.lightgbm then .ok .lightgbm
  else if av.sklearn then .ok .randomForest
  else .error "No ML library available. Please install catboost, lightgbm, or scikit-learn"

/-- The metrics dictionary built by `train_model` (`train.py` lines 96–101). -/
structure Metrics where
  mae : ℚ
  wape : ℚ
  model_type : String
deriving DecidableEq, Repr

/-- What a training run yields: the resolved model family (the fitted
artifact's kind), how many samples were fitted, and the metrics summary. -/
structure TrainOutcome where
  kind : ModelKind
  fitSamples : Nat
  metrics : Metrics
deriving DecidableEq, Repr

/-- `train_model(features_df, config)` (`train.py` lines 49–121): select a
model via `_get_model` (its `ImportError` propagates), fit either on the
features or on a single synthetic zero sample when the table is empty,
and build the metrics dictionary with `mae = 0`, `wape = 0` and
`model_type = config["model"]["type"]`.  The artifact write and the
swallowed audit insert do not affect the returned value and are not
modelled. -/
def train_model (features : List FeatRow) (cfg : Config) (av : Availability) :
    Except String TrainOutcome :=
  match getModel av cfg with
  | .error e => .error e
  | .ok kind =>
    .ok { kind := kind
          fitSamples := if features.isEmpty then 1 else features.length
          metrics := { mae := 0, wape := 0, model_type := cfg.modelType } }

/-! ## Forecast generation (`src/models/predict.py`) -/

/-- The feature vector assembled per (date, item) pair
(`predict.py` lines 64–74 and 139–154). -/
structure FeatureVec where
  lag_1 : ℚ
  lag_7 : ℚ
  rolling_7 : ℚ
  rolling_28 : ℚ
  day_of_week : Nat
  month : Nat
  promotion_discount : ℚ
  is_holiday : Int
  item_id : Int
deriving DecidableEq, Repr, Inhabited

/-- The loaded model artifact: an opaque inference capability whose
`predict` may fail on a given input. -/
structure Model where
  predict : FeatureVec → Except String ℚ

/-- A row of the returned forecast frame. -/
structure ForecastOut where
  date : Date
  item_id : Int
  predicted_quantity : ℚ
deriving DecidableEq, Repr, Inhabited

/-- A row of the `forecasts` relation as written by the persistence loop. -/
structure ForecastDBRow where
  date : Date
  item_id : Int
  predicted_quantity : ℚ
  run_id : String
deriving DecidableEq, Repr, Inhabited

/-- The single batch written by one invocation: all rows inserted under one
run identifier and committed together. -/
structure WriteBatch where
  runId : String
  rows : List ForecastDBRow
deriving DecidableEq, Repr, Inhabited

/-- What one invocation of the generator produces: the returned frame and
the store write, `none` meaning the `forecasts` relation was not touched. -/
structure PredictResult where
  result : List ForecastOut
  writes : Option WriteBatch
deriving DecidableEq, Repr, Inhabited

/-- The runtime environment `generate_forecasts` reads: whether
`latest.model` exists, the outcome `joblib.load` would have, the outcome
of the items query, whether the sales read and the promo/holiday query
succeed, the `daily_item_sales` content, the configuration, today's date,
and the run identifier `uuid.uuid4()` would freshly generate. -/
structure PredictEnv where
  modelExists : Bool
  modelLoad : Except String Model
  itemsQuery : Except String (List Int)
  salesReadOk : Bool
  promoQueryOk : Bool
  salesTable : List SRow
  config : Config
  today : Date
  freshRunId : String

/-- `COALESCE(promotion_discount, 0)` and `COALESCE(is_holiday, 0)`
applied to a stored row. -/
def coalesceRow (r : SRow) : SRow :=
  { r with
    promotion_discount := some (r.promotion_discount.getD 0)
    is_holiday := some (r.is_holiday.getD 0) }

/-- `ORDER BY date, item_id` of `load_sales_data`. -/
def rowDateItemLt (a b : SRow) : Bool :=
  decide (dateLt a.date b.date) ||
    (decide (a.date = b.date) && decide (a.item_id < b.item_id))

/-- `load_sales_data(config)` (`load_sales.py` lines 213–249): read the
sales facts with NULLs coalesced to 0, ordered by (date, item_id); any
read error degrades to an empty table. -/
def load_sales_data (env : PredictEnv) : List SRow :=
  if env.salesReadOk then stableSort rowDateItemLt (env.salesTable.map coalesceRow)
  else []

/-- The lag and rolling features `generate_forecasts` computes from one
item's observed history `qs`, sorted by date ascending
(`predict.py` lines 106–119): `iloc[-1]`, `iloc[-7]`, `tail(7).mean()`,
`tail(28).mean()`, with the all-zero branch for an empty history. -/
def forecastFeatures (qs : List ℚ) : ℚ × ℚ × ℚ × ℚ :=
  if qs.isEmpty then (0, 0, 0, 0)
  else
    ( if 1 ≤ qs.length then qs.getD (qs.length - 1) 0 else 0,
      if 7 ≤ qs.length then qs.getD (qs.length - 7) 0 else 0,
      if 1 ≤ qs.length then windowMean (qs.drop (qs.length - 7)) else 0,
      if 1 ≤ qs.length then windowMean (qs.drop (qs.length - 28)) else 0 )

/-- One item's observed quantity history: its rows of the loaded sales
frame, sorted by date ascending (`predict.py` lines 104–108). -/
def histQuantities (salesDf : List SRow) (it : Int) : List ℚ :=
  (stableSort rowDateLt (salesDf.filter (fun r => decide (r.item_id = it)))).map
    (fun r => r.quantity)

/-- The promo/holiday lookup for a forecast date and item
(`predict.py` lines 127–136): first matching row of the coalesced query
result, defaulting to (0, 0). -/
def promoLookup (promoDf : List SRow) (d : Date) (it : Int) : ℚ × Int :=
  match promoDf.find? (fun r => decide (r.date = d) && decide (r.item_id = it)) with
  | some r => (r.promotion_discount.getD 0, r.is_holiday.getD 0)
  | none => (0, 0)

/-- The promo/holiday query result (`predict.py` lines 77–97): coalesced
sales rows whose date falls in the forecast range; a query error degrades
to an empty frame. -/
def promoTable (env : PredictEnv) (dates : List Date) : List SRow :=
  if env.promoQueryOk then
    (env.salesTable.map coalesceRow).filter (fun r => decide (r.date ∈ dates))
  else []

/-- The feature vector for one (forecast date, item) pair
(`predict.py` lines 99–154). -/
def featureVecFor (salesDf promoDf : List SRow) (d : Date) (it : Int) : FeatureVec :=
  let f := forecastFeatures (histQuantities salesDf it)
  let ph := promoLookup promoDf d it
  { lag_1 := f.1
    lag_7 := f.2.1
    rolling_7 := f.2.2.1
    rolling_28 := f.2.2.2
    day_of_week := dayOfWeek d
    month := d.month
    promotion_discount := ph.1
    is_holiday := ph.2
    item_id := it }

/-- One prediction (`predict.py` lines 156–163): clamp to non-negative;
a per-row failure is caught and substituted with 0. -/
def predictOne (model : Model) (x : FeatureVec) : ℚ :=
  match model.predict x with
  | .ok v => max 0 v
  | .error _ => 0

/-- The prediction loop of `generate_forecasts` (`predict.py` lines
99–167): one forecast row per (date, item) pair, outer loop over the
forecast dates, inner loop over the items. -/
def forecastRows (env : PredictEnv) (model : Model) (items : List Int) :
    List ForecastOut :=
  let dates := get_date_range env.today env.config.horizon
  let salesDf := load_sales_data env
  let promoDf := promoTable env dates
  dates.flatMap (fun d => items.map (fun it =>
    { date := d
      item_id := it
      predicted_quantity :=
        predictOne model (featureVecFor salesDf promoDf d it) : ForecastOut }))

/-- `generate_forecasts(config)` (`predict.py`).  Early degraded exits:
missing artifact, failing load, failing items query, or no items, each
yielding the empty frame and no store write.  Otherwise one prediction per
(date, item) pair in loop order, and, when the frame is non-empty, a
single batch write of all rows under the one fresh run identifier. -/
def generate_forecasts (env : PredictEnv) : PredictResult :=
  if env.modelExists = false then ⟨[], none⟩
  else
    match env.modelLoad with
    | .error _ => ⟨[], none⟩
    | .ok model =>
      match env.itemsQuery with
      | .error _ => ⟨[], none⟩
      | .ok items =>
        if items.isEmpty then ⟨[], none⟩
        else
          let rows := forecastRows env model items
          if rows.isEmpty then ⟨rows, none⟩
          else
            ⟨rows,
              some ⟨env.freshRunId,
                rows.map (fun f =>
                  ⟨f.date, f.item_id, f.predicted_quantity, env.freshRunId⟩)⟩⟩

/-! ## Heap-with-aliasing model of `build_features` (frame property) -/

/-- A pandas object: either a sales frame or a feature frame. -/
inductive PObj where
  | sales (t : SalesTable)
  | feat (rows : List FeatRow)
deriving DecidableEq, Repr

/-- The store of live pandas objects; a reference is an index. -/
structure Heap where
  objs : List PObj
deriving DecidableEq, Repr

/-- Dereference. -/
def Heap.get (h : Heap) (r : Nat) : Option PObj :=
  h.objs.get? r

/-- Allocate a fresh object, returning the new heap and its reference. -/
def Heap.alloc (h : Heap) (o : PObj) : Heap × Nat :=
  (⟨h.objs ++ [o]⟩, h.objs.length)

/-- Mutate the object behind an existing reference in place. -/
def Heap.set (h : Heap) (r : Nat) (o : PObj) : Heap :=
  ⟨h.objs.set r o⟩

/-- `build_features` with pandas object identity made explicit, so that
in-place column mutation is distinguishable from rebinding a local name.
Every in-place operation of the source acts on an object allocated inside
the call: line 43 copies the input before line 44 mutates the date column
in place, and line 56 copies the projection before lines 58–92 derive the
feature columns on it.  Returns `none` when the reference does not point
at a sales frame (the source would raise on such an argument). -/
def build_features_st (h0 : Heap) (inRef : Nat) : Heap × Option Nat :=
  match h0.get inRef with
  | some (PObj.sales T) =>
    if T.rows.isEmpty then
      -- line 26: a fresh empty feature frame is returned
      let a := h0.alloc (PObj.feat [])
      (a.1, some a.2)
    else
      -- line 43: `sales_df = sales_df.copy()` — fresh object, local rebinds
      let a1 := h0.alloc (PObj.sales T)
      -- line 44: `sales_df["date"] = pd.to_datetime(...)` — in-place write
      -- to the copy (the date conversion is the identity in this model,
      -- where dates are already structured)
      let h2 := a1.1.set a1.2 (PObj.sales T)
      -- line 47: `sort_values` returns a new frame; the local rebinds to it
      let a2 := h2.alloc (PObj.sales { T with rows := stableSort rowKeyLt T.rows })
      -- line 56: `feature_df = sales_df[base_cols].copy()` — fresh object;
      -- lines 58–92 then derive the feature columns in place on it, no
      -- other reference aliasing it
      let a3 := a2.1.alloc
        (PObj.feat (buildLoop T.hasPromo T.hasHoliday (fun _ => [])
          (stableSort rowKeyLt T.rows)))
      (a3.1, some a3.2)
  | _ => (h0, none)

/-! ## Properties of the stable sort -/

theorem insertSorted_mem (lt : α → α → Bool) (x : α) (l : List α) (y : α) :
    y ∈ insertSorted lt x l ↔ y = x ∨ y ∈ l := by
  induction l with
  | nil => simp [insertSorted]
  | cons e es ih =>
    simp only [insertSorted]
    by_cases h : lt e x = true
    · simp [h, ih]
      try tauto
    · simp [h]
      try tauto

theorem stableSort_mem (lt : α → α → Bool) (l : List α) (y : α) :
    y ∈ stableSort lt l ↔ y ∈ l := by
  induction l with
  | nil => simp [stableSort]
  | cons x xs ih =>
    simp only [stableSort]
    rw [insertSorted_mem]
    simp [ih]
    try tauto

theorem insertSorted_pairwise (lt : α → α → Bool)
    (hasym : ∀ a b, lt a b = true → lt b a = false)
    (hchain : ∀ a b c, lt a b = true → lt a c = true ∨ lt c b = true)
    (x : α) (l : List α) (hl : l.Pairwise (fun a b => lt b a = false)) :
    (insertSorted lt x l).Pairwise (fun a b => lt b a = false) := by
  induction l with
  | nil => simp [insertSorted]
  | cons e es ih =>
    rcases List.pairwise_cons.mp hl with ⟨he, hes⟩
    simp only [insertSorted]
    by_cases h : lt e x = true
    · simp only [h, if_true]
      refine List.pairwise_cons.mpr ⟨?_, ih hes⟩
      intro y hy
      rcases (insertSorted_mem lt x es y).mp hy with rfl | hmem
      · exact hasym e y h
      · exact he y hmem
    · simp only [h, if_false]
      refine List.pairwise_cons.mpr ⟨?_, hl⟩
      intro y hy
      rcases List.mem_cons.mp hy with rfl | hmem
      · exact Bool.not_eq_true _ ▸ h
      · cases hlt : lt y x with
        | false => rfl
        | true =>
          rcases hchain y x e hlt with h1 | h2
          · rw [he y hmem] at h1
            exact Bool.noConfusion h1
          · exact absurd h2 h

theorem stableSort_pairwise (lt : α → α → Bool)
    (hasym : ∀ a b, lt a b = true → lt b a = false)
    (hchain : ∀ a b c, lt a b = true → lt a c = true ∨ lt c b = true)
    (l : List α) :
    (stableSort lt l).Pairwise (fun a b => lt b a = false) := by
  induction l with
  | nil => simp [stableSort]
  | cons x xs ih => exact insertSorted_pairwise lt hasym hchain x _ ih

theorem insertSorted_eq_cons (lt : α → α → Bool) (x : α) (m : List α)
    (h : ∀ f ∈ m, lt f x = false) : insertSorted lt x m = x :: m := by
  cases m with
  | nil => rfl
  | cons f fs =>
    simp only [insertSorted]
    rw [h f (List.mem_cons_self f fs)]
    simp

theorem filter_insertSorted (lt : α → α → Bool)
    (hchain : ∀ a b c, lt a b = true → lt a c = true ∨ lt c b = true)
    (p : α → Bool) (x : α) (l : List α)
    (hl : l.Pairwise (fun a b => lt b a = false)) :
    (insertSorted lt x l).filter p =
      if p x then insertSorted lt x (l.filter p) else l.filter p := by
  induction l with
  | nil =>
    by_cases hp : p x = true <;> simp [insertSorted, List.filter_cons, hp]
  | cons e es ih =>
    rcases List.pairwise_cons.mp hl with ⟨he, hes⟩
    simp only [insertSorted]
    by_cases h : lt e x = true
    · by_cases hp : p e = true <;> by_cases hpx : p x = true <;>
        simp [h, hp, hpx, List.filter_cons, ih hes, insertSorted]
    · rw [Bool.not_eq_true] at h
      by_cases hpx : p x = true
      · rw [h]
        simp only [Bool.false_eq_true, if_false, List.filter_cons, hpx, if_true]
        symm
        apply insertSorted_eq_cons
        intro f hf
        have hfmem : f ∈ e :: es := by
          by_cases hpe : p e = true
          · rw [if_pos hpe] at hf
            rcases List.mem_cons.mp hf with rfl | hfe
            · exact List.mem_cons_self _ _
            · exact List.mem_cons_of_mem _ (List.mem_of_mem_filter hfe)
          · rw [if_neg hpe] at hf
            exact List.mem_cons_of_mem _ (List.mem_of_mem_filter hf)
        rcases List.mem_cons.mp hfmem with rfl | hmem
        · exact h
        · cases hlt : lt f x with
          | false => rfl
          | true =>
            rcases hchain f x e hlt with h1 | h2
            · rw [he f hmem] at h1
              exact Bool.noConfusion h1
            · rw [h] at h2
              exact Bool.noConfusion h2
      · simp [h, hpx, List.filter_cons]

theorem filter_stableSort (lt : α → α → Bool)
    (hasym : ∀ a b, lt a b = true → lt b a = false)
    (hchain : ∀ a b c, lt a b = true → lt a c = true ∨ lt c b = true)
    (p : α → Bool) (l : List α) :
    (stableSort lt l).filter p = stableSort lt (l.filter p) := by
  induction l with
  | nil => rfl
  | cons x xs ih =>
    simp only [stableSort]
    rw [filter_insertSorted lt hchain p x _ (stableSort_pairwise lt hasym hchain xs), ih]
    rw [List.filter_cons]
    by_cases hp : p x = true <;> simp [hp, stableSort]

theorem insertSorted_congr (lt lt2 : α → α → Bool) (x : α) (m : List α)
    (h : ∀ e ∈ m, lt e x = lt2 e x) :
    insertSorted lt x m = insertSorted lt2 x m := by
  induction m with
  | nil => rfl
  | cons e es ih =>
    simp only [insertSorted]
    rw [h e (List.mem_cons_self e es)]
    by_cases h2 : lt2 e x = true <;>
      simp [h2, ih (fun f hf => h f (List.mem_cons_of_mem e hf))]

theorem stableSort_congr (lt lt2 : α → α → Bool) (l : List α)
    (h : ∀ a ∈ l, ∀ b ∈ l, lt a b = lt2 a b) :
    stableSort lt l = stableSort lt2 l := by
  induction l with
  | nil => rfl
  | cons x xs ih =>
    simp only [stableSort]
    rw [ih (fun a ha b hb =>
      h a (List.mem_cons_of_mem x ha) b (List.mem_cons_of_mem x hb))]
    apply insertSorted_congr
    intro e he
    have : e ∈ xs := (stableSort_mem lt2 xs e).mp he
    exact h e (List.mem_cons_of_mem x this) x (List.mem_cons_self x xs)

/-! ## Order facts for the row keys -/

theorem rowKeyLt_asymm (a b : SRow) : rowKeyLt a b = true → rowKeyLt b a = false := by
  simp only [rowKeyLt, dateLt, Bool.or_eq_true, Bool.and_eq_true, decide_eq_true_eq,
    Bool.or_eq_false_iff, Bool.and_eq_false_iff, decide_eq_false_iff_not]
  omega

theorem rowKeyLt_chain (a b c : SRow) :
    rowKeyLt a b = true → rowKeyLt a c = true ∨ rowKeyLt c b = true := by
  simp only [rowKeyLt, dateLt, Bool.or_eq_true, Bool.and_eq_true, decide_eq_true_eq]
  omega

theorem rowKeyLt_eq_rowDateLt {k : Int} {a b : SRow}
    (ha : a.item_id = k) (hb : b.item_id = k) : rowKeyLt a b = rowDateLt a b := by
  simp [rowKeyLt, rowDateLt, ha, hb]

/-! ## Per-item characterization of the grouped feature columns -/

@[simp] theorem featRowOf_item_id (hp hh : Bool) (h : List ℚ) (r : SRow) :
    (featRowOf hp hh h r).item_id = r.item_id := rfl

theorem buildLoop_filter (hp hh : Bool) (k : Int) :
    ∀ (rs : List SRow) (hist : Int → List ℚ),
      (buildLoop hp hh hist rs).filter (fun fr => decide (fr.item_id = k)) =
        mapWithHist hp hh (hist k) (rs.filter (fun r => decide (r.item_id = k))) := by
  intro rs
  induction rs with
  | nil => intro hist; rfl
  | cons r rs ih =>
    intro hist
    simp only [buildLoop, List.filter_cons]
    rw [ih]
    by_cases hr : r.item_id = k
    · simp [hr, mapWithHist]
    · simp [hr, Ne.symm hr, mapWithHist]

theorem mapWithHist_length (hp hh : Bool) (h : List ℚ) (rs : List SRow) :
    (mapWithHist hp hh h rs).length = rs.length := by
  induction rs generalizing h with
  | nil => rfl
  | cons r rs ih => simp [mapWithHist, ih]

theorem mapWithHist_getD (hp hh : Bool) :
    ∀ (rs : List SRow) (h : List ℚ) (j : Nat), j < rs.length →
      (mapWithHist hp hh h rs).getD j default =
        featRowOf hp hh (h ++ (rs.map (fun r => r.quantity)).take j)
          (rs.getD j default) := by
  intro rs
  induction rs with
  | nil => intro h j hj; exact absurd hj (by simp)
  | cons r rs ih =>
    intro h j hj
    cases j with
    | zero => simp [mapWithHist]
    | succ j =>
      have hj' : j < rs.length := by simpa using hj
      simp only [mapWithHist, List.getD_cons_succ, List.map_cons, List.take_succ_cons]
      rw [ih (h ++ [r.quantity]) j hj']
      rw [List.append_assoc]
      rfl

theorem build_filter_char (T : SalesTable) (cfg : Config) (k : Int) :
    (build_features T cfg).filter (fun fr => decide (fr.item_id = k)) =
      mapWithHist T.hasPromo T.hasHoliday []
        (stableSort rowDateLt (T.rows.filter (fun r => decide (r.item_id = k)))) := by
  unfold build_features
  by_cases hE : T.rows.isEmpty
  · have : T.rows = [] := List.isEmpty_iff.mp hE
    rw [if_pos hE, this]
    rfl
  · rw [if_neg hE, buildLoop_filter]
    rw [filter_stableSort rowKeyLt rowKeyLt_asymm rowKeyLt_chain]
    congr 1
    apply stableSort_congr
    intro a ha b hb
    have ha' : a.item_id = k := by
      have := List.of_mem_filter ha
      simpa using this
    have hb' : b.item_id = k := by
      have := List.of_mem_filter hb
      simpa using this
    exact rowKeyLt_eq_rowDateLt ha' hb'

@[simp] theorem featRowOf_quantity (hp hh : Bool) (h : List ℚ) (r : SRow) :
    (featRowOf hp hh h r).quantity = r.quantity := rfl

@[simp] theorem featRowOf_lag_1 (hp hh : Bool) (h : List ℚ) (r : SRow) :
    (featRowOf hp hh h r).lag_1 = lagOf h 1 := rfl

@[simp] theorem featRowOf_lag_7 (hp hh : Bool) (h : List ℚ) (r : SRow) :
    (featRowOf hp hh h r).lag_7 = lagOf h 7 := rfl

@[simp] theorem featRowOf_rolling_7 (hp hh : Bool) (h : List ℚ) (r : SRow) :
    (featRowOf hp hh h r).rolling_7 = rollOf (h ++ [r.quantity]) 7 := rfl

@[simp] theorem featRowOf_rolling_28 (hp hh : Bool) (h : List ℚ) (r : SRow) :
    (featRowOf hp hh h r).rolling_28 = rollOf (h ++ [r.quantity]) 28 := rfl

theorem getD_map_quantity (l : List SRow) (j : Nat) (hj : j < l.length) :
    (l.map (fun r => r.quantity)).getD j 0 = (l.getD j default).quantity := by
  rw [List.getD_eq_getElem _ _ (by simpa using hj), List.getD_eq_getElem _ _ hj,
    List.getElem_map]

theorem getD_take_eq (l : List ℚ) (n m : Nat) (h : m < n) (h2 : m < l.length) :
    (l.take n).getD m 0 = l.getD m 0 := by
  have hlt : m < (l.take n).length := by
    simp only [List.length_take]
    omega
  rw [List.getD_eq_getElem _ _ hlt, List.getD_eq_getElem _ _ h2, List.getElem_take]

theorem lagOf_take (qs : List ℚ) (j kk : Nat) (hj : j ≤ qs.length) (hk : 1 ≤ kk) :
    lagOf (qs.take j) kk = if kk ≤ j then qs.getD (j - kk) 0 else 0 := by
  have hlen : (qs.take j).length = j := by
    simp only [List.length_take]
    omega
  unfold lagOf
  rw [hlen]
  by_cases h : kk ≤ j
  · rw [if_pos h, if_pos h]
    exact getD_take_eq qs j (j - kk) (by omega) (by omega)
  · rw [if_neg h, if_neg h]

theorem take_append_getD (l : List ℚ) (j : Nat) (hj : j < l.length) :
    l.take j ++ [l.getD j 0] = l.take (j + 1) := by
  rw [List.take_succ, List.getElem?_eq_getElem hj]
  rw [List.getD_eq_getElem _ _ hj]
  rfl

theorem trailing_window_eq_drop (l : List ℚ) (w : Nat) :
    (l.reverse.take w).reverse = l.drop (l.length - w) := by
  rw [List.reverse_take]
  simp

theorem rollOf_spec (l : List ℚ) (w : Nat) (hw : 0 < w) (hl : l ≠ []) :
    rollOf l w =
      ((l.reverse.take w).reverse.sum) / (((l.reverse.take w).reverse.length : ℚ)) ∧
    (l.reverse.take w).reverse.length = min w l.length ∧
    (l.reverse.take w).reverse ≠ [] := by
  have hdrop : (l.reverse.take w).reverse = l.drop (l.length - w) :=
    trailing_window_eq_drop l w
  have hlen : (l.drop (l.length - w)).length = min w l.length := by
    rw [List.length_drop]
    have : 0 < l.length := List.length_pos.mpr hl
    omega
  have hpos : 0 < (l.drop (l.length - w)).length := by
    rw [hlen]
    have : 0 < l.length := List.length_pos.mpr hl
    omega
  refine ⟨?_, by rw [hdrop, hlen], ?_⟩
  · rw [hdrop]
    unfold rollOf windowMean
    rw [if_neg (by omega)]
  · rw [hdrop]
    intro hcon
    rw [hcon] at hpos
    exact absurd hpos (by simp)

/-- **C5**: for every input table and every item `k`, writing `[q1..qn]`
for that item's history sorted by date ascending, the feature builder's
rows for item `k` carry `lag_1` at position `i` equal to `q(i-1)` (0 when
`i < 2`) and `lag_7` at position `i` equal to `q(i-7)` (0 when `i < 8`),
computed only within the item's own history — the whole rest of the table
is arbitrary in the statement. -/
theorem build_features_lag_per_item (T : SalesTable) (cfg : Config) (k : Int)
    (out : List FeatRow) (qs : List ℚ)
    (hout : out = (build_features T cfg).filter (fun fr => decide (fr.item_id = k)))
    (hqs : qs = dateSortedHistory T k) :
    out.length = qs.length ∧
    ∀ i : Nat, 1 ≤ i → i ≤ out.length →
      (out.getD (i - 1) default).quantity = qs.getD (i - 1) 0 ∧
      (out.getD (i - 1) default).lag_1 = (if 2 ≤ i then qs.getD (i - 2) 0 else 0) ∧
      (out.getD (i - 1) default).lag_7 = (if 8 ≤ i then qs.getD (i - 8) 0 else 0) := by
  subst hout
  subst hqs
  rw [build_filter_char]
  have hq : dateSortedHistory T k =
      (stableSort rowDateLt (T.rows.filter (fun r => decide (r.item_id = k)))).map
        (fun r => r.quantity) := rfl
  set srt := stableSort rowDateLt (T.rows.filter (fun r => decide (r.item_id = k)))
    with hsrt
  constructor
  · rw [mapWithHist_length, hq, List.length_map]
  · intro i hi1 hiLen
    rw [mapWithHist_length] at hiLen
    have hj : i - 1 < srt.length := by omega
    rw [mapWithHist_getD T.hasPromo T.hasHoliday srt [] (i - 1) hj]
    rw [hq]
    simp only [List.nil_append, featRowOf_quantity, featRowOf_lag_1, featRowOf_lag_7]
    have hmapLen : i - 1 ≤ (srt.map (fun r => r.quantity)).length := by
      rw [List.length_map]
      omega
    refine ⟨?_, ?_, ?_⟩
    · exact (getD_map_quantity srt (i - 1) hj).symm ▸ rfl
    · rw [lagOf_take _ (i - 1) 1 hmapLen (by omega)]
      by_cases h2 : 2 ≤ i
      · rw [if_pos (by omega : 1 ≤ i - 1), if_pos h2]
        have : i - 1 - 1 = i - 2 := by omega
        rw [this]
      · rw [if_neg (by omega : ¬ 1 ≤ i - 1), if_neg h2]
    · rw [lagOf_take _ (i - 1) 7 hmapLen (by omega)]
      by_cases h8 : 8 ≤ i
      · rw [if_pos (by omega : 7 ≤ i - 1), if_pos h8]
        have : i - 1 - 7 = i - 8 := by omega
        rw [this]
      · rw [if_neg (by omega : ¬ 7 ≤ i - 1), if_neg h8]

/-- Witness for C5 at the spec's own example: item 1 with history
`[(d1,5),(d2,7)]`; the feature row at position 2 has `lag_1 = 5`. -/
theorem build_features_lag_per_item_witness :
    (1 : Nat) ≤ 2 ∧
    2 ≤ ((build_features
        ⟨[⟨⟨2024,1,1⟩, 1, 5, none, none⟩, ⟨⟨2024,1,2⟩, 1, 7, none, none⟩],
          false, false⟩ ⟨"catboost", 3⟩).filter
        (fun fr => decide (fr.item_id = 1))).length ∧
    (((build_features
        ⟨[⟨⟨2024,1,1⟩, 1, 5, none, none⟩, ⟨⟨2024,1,2⟩, 1, 7, none, none⟩],
          false, false⟩ ⟨"catboost", 3⟩).filter
        (fun fr => decide (fr.item_id = 1))).getD 1 default).lag_1 = 5 := by
  have h := build_features_lag_per_item
    ⟨[⟨⟨2024,1,1⟩, 1, 5, none, none⟩, ⟨⟨2024,1,2⟩, 1, 7, none, none⟩],
      false, false⟩ ⟨"catboost", 3⟩ 1 _ _ rfl rfl
  refine ⟨by decide, by decide, ?_⟩
  have h2 := (h.2 2 (by decide) (by decide)).2.1
  rw [h2]
  decide

/-- **C6**: for every input table and every item `k`, writing `[q1..qn]`
for that item's history sorted by date ascending, the feature builder's
rows for item `k` carry `rolling_7` at position `i` equal to the
arithmetic mean of the trailing up-to-7 window `q(max(1,i-6)..i)` — stated
as the reversed 7-prefix of the first `i` quantities — and `rolling_28`
likewise with window 28; the window is never empty (early rows average
over `min w i` points instead of being undefined). -/
theorem build_features_rolling_per_item (T : SalesTable) (cfg : Config) (k : Int)
    (out : List FeatRow) (qs : List ℚ)
    (hout : out = (build_features T cfg).filter (fun fr => decide (fr.item_id = k)))
    (hqs : qs = dateSortedHistory T k) :
    out.length = qs.length ∧
    ∀ i : Nat, 1 ≤ i → i ≤ out.length →
      ((qs.take i).reverse.take 7).reverse ≠ [] ∧
      ((qs.take i).reverse.take 7).reverse.length = min 7 i ∧
      (out.getD (i - 1) default).rolling_7 =
        ((qs.take i).reverse.take 7).reverse.sum /
          ((((qs.take i).reverse.take 7).reverse.length : ℚ)) ∧
      ((qs.take i).reverse.take 28).reverse.length = min 28 i ∧
      (out.getD (i - 1) default).rolling_28 =
        ((qs.take i).reverse.take 28).reverse.sum /
          ((((qs.take i).reverse.take 28).reverse.length : ℚ)) := by
  subst hout
  subst hqs
  rw [build_filter_char]
  have hq : dateSortedHistory T k =
      (stableSort rowDateLt (T.rows.filter (fun r => decide (r.item_id = k)))).map
        (fun r => r.quantity) := rfl
  set srt := stableSort rowDateLt (T.rows.filter (fun r => decide (r.item_id = k)))
    with hsrt
  constructor
  · rw [mapWithHist_length, hq, List.length_map]
  · intro i hi1 hiLen
    rw [mapWithHist_length] at hiLen
    have hj : i - 1 < srt.length := by omega
    rw [mapWithHist_getD T.hasPromo T.hasHoliday srt [] (i - 1) hj]
    rw [hq]
    simp only [List.nil_append, featRowOf_rolling_7, featRowOf_rolling_28]
    set qs := srt.map (fun r => r.quantity) with hqdef
    have hqlen : qs.length = srt.length := List.length_map _ _
    have hjq : i - 1 < qs.length := by omega
    have hquant : (srt.getD (i - 1) default).quantity = qs.getD (i - 1) 0 :=
      (getD_map_quantity srt (i - 1) hj).symm
    rw [hquant, take_append_getD qs (i - 1) hjq]
    have hi' : i - 1 + 1 = i := by omega
    rw [hi']
    have hlenTake : (qs.take i).length = i := by
      simp only [List.length_take]
      omega
    have hne : qs.take i ≠ [] := by
      intro hcon
      rw [hcon] at hlenTake
      simp at hlenTake
      omega
    have h7 := rollOf_spec (qs.take i) 7 (by omega) hne
    have h28 := rollOf_spec (qs.take i) 28 (by omega) hne
    refine ⟨h7.2.2, ?_, h7.1, ?_, h28.1⟩
    · rw [h7.2.1, hlenTake]
    · rw [h28.2.1, hlenTake]

/-- Witness for C6 at the spec's own example: item 1 with history
`[(d1,5),(d2,7)]`; the feature row at position 2 has
`rolling_7 = (5+7)/2 = 6`. -/
theorem build_features_rolling_per_item_witness :
    (1 : Nat) ≤ 2 ∧
    2 ≤ ((build_features
        ⟨[⟨⟨2024,1,1⟩, 1, 5, none, none⟩, ⟨⟨2024,1,2⟩, 1, 7, none, none⟩],
          false, false⟩ ⟨"catboost", 3⟩).filter
        (fun fr => decide (fr.item_id = 1))).length ∧
    (((build_features
        ⟨[⟨⟨2024,1,1⟩, 1, 5, none, none⟩, ⟨⟨2024,1,2⟩, 1, 7, none, none⟩],
          false, false⟩ ⟨"catboost", 3⟩).filter
        (fun fr => decide (fr.item_id = 1))).getD 1 default).rolling_7 = 6 := by
  have h := build_features_rolling_per_item
    ⟨[⟨⟨2024,1,1⟩, 1, 5, none, none⟩, ⟨⟨2024,1,2⟩, 1, 7, none, none⟩],
      false, false⟩ ⟨"catboost", 3⟩ 1 _ _ rfl rfl
  refine ⟨by decide, by decide, ?_⟩
  have h2 := (h.2 2 (by decide) (by decide)).2.2.1
  rw [h2]
  norm_num [dateSortedHistory, stableSort, insertSorted, rowDateLt, dateLt]

theorem getD_reverse (l : List ℚ) (m : Nat) (hm : m < l.length) :
    l.reverse.getD m 0 = l.getD (l.length - 1 - m) 0 := by
  have hm' : m < l.reverse.length := by simpa using hm
  rw [List.getD_eq_getElem _ _ hm', List.getD_eq_getElem _ _ (by omega)]
  exact List.getElem_reverse hm'

theorem windowMean_drop_eq (qs : List ℚ) (w : Nat) (hw : 0 < w) (h : qs ≠ []) :
    windowMean (qs.drop (qs.length - w)) =
      (qs.reverse.take w).sum / (((qs.reverse.take w).length : ℚ)) := by
  have hdrop := trailing_window_eq_drop qs w
  rw [← hdrop]
  have hlen : (qs.reverse.take w).reverse.length = (qs.reverse.take w).length := by
    simp
  have hsum : (qs.reverse.take w).reverse.sum = (qs.reverse.take w).sum :=
    List.sum_reverse _
  have hpos : 0 < (qs.reverse.take w).length := by
    simp only [List.length_take, List.length_reverse]
    have : 0 < qs.length := List.length_pos.mpr h
    omega
  unfold windowMean
  rw [hlen, hsum, if_neg (by omega)]

/-- **C4**: for every generator invocation context (arbitrary loaded sales
frame, promo frame and forecast target date), the features the generator
computes for an item from its observed history `qs` (sorted by date
ascending) satisfy: `lag_1` is the most recent observed quantity (0 with
no history); `lag_7` is the 7th-most-recent observed quantity when at
least 7 observations exist, else 0; `rolling_7` and `rolling_28` are the
means of the trailing 7 resp. 28 observed quantities — of however many
exist when fewer, and 0 when none.  The target date influences none of
these. -/
theorem forecast_features_from_observed_history
    (salesDf promoDf : List SRow) (d : Date) (it : Int) (qs : List ℚ)
    (hqs : qs = histQuantities salesDf it) :
    (featureVecFor salesDf promoDf d it).lag_1 = qs.reverse.headD 0 ∧
    (featureVecFor salesDf promoDf d it).lag_7 =
      (if 7 ≤ qs.length then qs.reverse.getD 6 0 else 0) ∧
    (featureVecFor salesDf promoDf d it).rolling_7 =
      (if qs = [] then 0 else
        (qs.reverse.take 7).sum / (((qs.reverse.take 7).length : ℚ))) ∧
    (featureVecFor salesDf promoDf d it).rolling_28 =
      (if qs = [] then 0 else
        (qs.reverse.take 28).sum / (((qs.reverse.take 28).length : ℚ))) ∧
    (qs.reverse.take 7).length = min 7 qs.length ∧
    (qs.reverse.take 28).length = min 28 qs.length := by
  have hl1 : (featureVecFor salesDf promoDf d it).lag_1 =
      (forecastFeatures (histQuantities salesDf it)).1 := rfl
  have hl7 : (featureVecFor salesDf promoDf d it).lag_7 =
      (forecastFeatures (histQuantities salesDf it)).2.1 := rfl
  have hr7 : (featureVecFor salesDf promoDf d it).rolling_7 =
      (forecastFeatures (histQuantities salesDf it)).2.2.1 := rfl
  have hr28 : (featureVecFor salesDf promoDf d it).rolling_28 =
      (forecastFeatures (histQuantities salesDf it)).2.2.2 := rfl
  rw [hl1, hl7, hr7, hr28, ← hqs]
  by_cases hE : qs = []
  · subst hE
    simp [forecastFeatures]
  · have hne : qs.isEmpty = false := by
      cases qs with
      | nil => exact absurd rfl hE
      | cons a as => rfl
    have hlen : 0 < qs.length := List.length_pos.mpr hE
    have hhead : qs.reverse.headD 0 = qs.reverse.getD 0 0 := by
      cases qs.reverse <;> simp
    unfold forecastFeatures
    simp only [hne, Bool.false_eq_true, if_false]
    refine ⟨?_, ?_, ?_, ?_, ?_, ?_⟩
    · rw [if_pos (by omega : 1 ≤ qs.length), hhead,
        getD_reverse qs 0 (by omega)]
      rw [Nat.sub_zero]
    · by_cases h7 : 7 ≤ qs.length
      · rw [if_pos h7, if_pos h7, getD_reverse qs 6 (by omega)]
        have : qs.length - 1 - 6 = qs.length - 7 := by omega
        rw [this]
      · rw [if_neg h7, if_neg h7]
    · rw [if_pos (by omega : 1 ≤ qs.length), if_neg hE]
      exact windowMean_drop_eq qs 7 (by omega) hE
    · rw [if_pos (by omega : 1 ≤ qs.length), if_neg hE]
      exact windowMean_drop_eq qs 28 (by omega) hE
    · simp [List.length_take]
    · simp [List.length_take]

/-- Witness for C4: an item with history `[5, 7]` gets `lag_1 = 7`, the
most recent observed quantity. -/
theorem forecast_features_from_observed_history_witness :
    (featureVecFor
      [⟨⟨2024,1,1⟩, 1, 5, none, none⟩, ⟨⟨2024,1,2⟩, 1, 7, none, none⟩]
      [] ⟨2024,1,3⟩ 1).lag_1 = 7 := by
  have h := forecast_features_from_observed_history
    [⟨⟨2024,1,1⟩, 1, 5, none, none⟩, ⟨⟨2024,1,2⟩, 1, 7, none, none⟩]
    [] ⟨2024,1,3⟩ 1 _ rfl
  rw [h.1]
  decide

/-- **C7**: the generator degrades to an empty result — empty frame and no
store write, with no exception modelled on any of these paths — whenever
the artifact is missing, the artifact fails to load, or no items are
registered. -/
theorem generate_forecasts_degrade_to_empty (env : PredictEnv)
    (h : env.modelExists = false ∨ (∃ e, env.modelLoad = .error e) ∨
      env.itemsQuery = .ok []) :
    (generate_forecasts env).result = [] ∧ (generate_forecasts env).writes = none := by
  rcases h with h1 | ⟨e, he⟩ | h3
  · simp [generate_forecasts, h1]
  · by_cases hm : env.modelExists = false
    · simp [generate_forecasts, hm]
    · simp [generate_forecasts, hm, he]
  · by_cases hm : env.modelExists = false
    · simp [generate_forecasts, hm]
    · cases hload : env.modelLoad with
      | error e => simp [generate_forecasts, hm, hload]
      | ok model => simp [generate_forecasts, hm, hload, h3]

/-- Witness for C7: a concrete environment with no model artifact yields
the empty frame and no write. -/
theorem generate_forecasts_degrade_to_empty_witness :
    (generate_forecasts
      { modelExists := false
        modelLoad := .error "missing"
        itemsQuery := .ok [1]
        salesReadOk := true
        promoQueryOk := true
        salesTable := []
        config := ⟨"catboost", 3⟩
        today := ⟨2024,1,1⟩
        freshRunId := "run-1" }).result = [] ∧
    (generate_forecasts
      { modelExists := false
        modelLoad := .error "missing"
        itemsQuery := .ok [1]
        salesReadOk := true
        promoQueryOk := true
        salesTable := []
        config := ⟨"catboost", 3⟩
        today := ⟨2024,1,1⟩
        freshRunId := "run-1" }).writes = none :=
  generate_forecasts_degrade_to_empty _ (Or.inl rfl)

theorem generate_forecasts_char (env : PredictEnv) :
    generate_forecasts env = ⟨[], none⟩ ∨
    ∃ model items,
      env.modelExists = true ∧ env.modelLoad = .ok model ∧
      env.itemsQuery = .ok items ∧ items ≠ [] ∧
      generate_forecasts env =
        (if (forecastRows env model items).isEmpty then
          ⟨forecastRows env model items, none⟩
        else
          ⟨forecastRows env model items,
            some ⟨env.freshRunId,
              (forecastRows env model items).map (fun f =>
                ⟨f.date, f.item_id, f.predicted_quantity, env.freshRunId⟩)⟩⟩) := by
  by_cases hm : env.modelExists = false
  · left
    simp [generate_forecasts, hm]
  · cases hload : env.modelLoad with
    | error e =>
      left
      simp [generate_forecasts, hm, hload]
    | ok model =>
      cases hitems : env.itemsQuery with
      | error e =>
        left
        simp [generate_forecasts, hm, hload, hitems]
      | ok items =>
        by_cases hempty : items.isEmpty
        · left
          simp [generate_forecasts, hm, hload, hitems, hempty]
        · right
          refine ⟨model, items, ?_, rfl, rfl, ?_, ?_⟩
          · revert hm
            cases env.modelExists <;> simp
          · intro hcon
            rw [hcon] at hempty
            exact hempty rfl
          · simp [generate_forecasts, hm, hload, hitems, hempty]

/-- **C8**: when the result frame is empty the store is untouched and no
run identifier is consumed; when it is non-empty, exactly one batch is
written, carrying the whole result under the single fresh run
identifier. -/
theorem generate_forecasts_single_run_batch (env : PredictEnv) :
    ((generate_forecasts env).result = [] → (generate_forecasts env).writes = none) ∧
    ((generate_forecasts env).result ≠ [] →
      (generate_forecasts env).writes =
        some ⟨env.freshRunId, (generate_forecasts env).result.map
          (fun f => ⟨f.date, f.item_id, f.predicted_quantity, env.freshRunId⟩)⟩) ∧
    (∀ b, (generate_forecasts env).writes = some b →
      b.runId = env.freshRunId ∧ ∀ w ∈ b.rows, w.run_id = env.freshRunId) := by
  rcases generate_forecasts_char env with h | ⟨model, items, hm, hload, hitems, hne, h⟩
  · rw [h]
    exact ⟨fun _ => rfl, fun hcon => absurd rfl hcon, fun b hb => absurd hb (by simp)⟩
  · by_cases hre : (forecastRows env model items).isEmpty
    · rw [h, if_pos hre]
      have hrows : forecastRows env model items = [] := List.isEmpty_iff.mp hre
      exact ⟨fun _ => rfl, fun hcon => absurd hrows hcon, fun b hb => absurd hb (by simp)⟩
    · rw [h, if_neg hre]
      refine ⟨?_, fun _ => rfl, ?_⟩
      · intro hcon
        have : (forecastRows env model items).isEmpty = true := by
          rw [List.isEmpty_iff]
          exact hcon
        exact absurd this hre
      · intro b hb
        simp only [Option.some.injEq] at hb
        subst hb
        refine ⟨rfl, ?_⟩
        intro w hw
        simp only [List.mem_map] at hw
        rcases hw with ⟨f, hf, rfl⟩
        rfl

/-- Witness for C8: a one-date, one-item environment with a model that
predicts 3 writes exactly one batch holding the single forecast row under
the fresh run identifier. -/
theorem generate_forecasts_single_run_batch_witness :
    (generate_forecasts
      { modelExists := true
        modelLoad := .ok ⟨fun _ => .ok 3⟩
        itemsQuery := .ok [1]
        salesReadOk := true
        promoQueryOk := true
        salesTable := []
        config := ⟨"catboost", 1⟩
        today := ⟨2024,1,1⟩
        freshRunId := "run-8" }).result ≠ [] ∧
    (generate_forecasts
      { modelExists := true
        modelLoad := .ok ⟨fun _ => .ok 3⟩
        itemsQuery := .ok [1]
        salesReadOk := true
        promoQueryOk := true
        salesTable := []
        config := ⟨"catboost", 1⟩
        today := ⟨2024,1,1⟩
        freshRunId := "run-8" }).writes =
      some ⟨"run-8", [⟨⟨2024,1,1⟩, 1, 3, "run-8"⟩]⟩ := by
  have h := (generate_forecasts_single_run_batch
    { modelExists := true
      modelLoad := .ok ⟨fun _ => .ok 3⟩
      itemsQuery := .ok [1]
      salesReadOk := true
      promoQueryOk := true
      salesTable := []
      config := ⟨"catboost", 1⟩
      today := ⟨2024,1,1⟩
      freshRunId := "run-8" }).2.1 (by decide)
  refine ⟨by decide, ?_⟩
  rw [h]
  decide

theorem predictOne_nonneg (m : Model) (x : FeatureVec) : 0 ≤ predictOne m x := by
  unfold predictOne
  cases m.predict x with
  | ok v => exact le_max_left 0 v
  | error e => exact le_refl 0

theorem forecastRows_pairs (env : PredictEnv) (model : Model) (items : List Int) :
    (forecastRows env model items).map (fun f => (f.date, f.item_id)) =
      (get_date_range env.today env.config.horizon).flatMap
        (fun d => items.map (fun it => (d, it))) := by
  unfold forecastRows
  rw [List.map_flatMap]
  congr 1
  funext d
  rw [List.map_map]
  rfl

theorem generate_forecasts_result_main (env : PredictEnv) (model : Model)
    (items : List Int) (hm : env.modelExists = true)
    (hload : env.modelLoad = .ok model) (hitems : env.itemsQuery = .ok items)
    (hne : ¬ items.isEmpty = true) :
    (generate_forecasts env).result = forecastRows env model items := by
  simp only [generate_forecasts, hm, hload, hitems, hne, Bool.true_eq_false,
    if_false, Bool.false_eq_true]
  by_cases hre : (forecastRows env model items).isEmpty <;> simp [hre]

/-- **C9**: every predicted quantity in the result is non-negative; with
the model loaded and items read, every (date, item) pair of the horizon ×
items grid receives a prediction — a per-pair inference failure does not
abort the run — and any pair whose inference fails is substituted with
0. -/
theorem generate_forecasts_nonneg_isolated (env : PredictEnv) :
    (∀ f ∈ (generate_forecasts env).result, 0 ≤ f.predicted_quantity) ∧
    (∀ model items, env.modelExists = true → env.modelLoad = .ok model →
      env.itemsQuery = .ok items →
      (generate_forecasts env).result.map (fun f => (f.date, f.item_id)) =
        (get_date_range env.today env.config.horizon).flatMap
          (fun d => items.map (fun it => (d, it)))) ∧
    (∀ model, env.modelLoad = .ok model →
      ∀ f ∈ (generate_forecasts env).result, ∀ e,
        model.predict (featureVecFor (load_sales_data env)
          (promoTable env (get_date_range env.today env.config.horizon))
          f.date f.item_id) = .error e →
        f.predicted_quantity = 0) := by
  have hmem : ∀ model items, ∀ f ∈ forecastRows env model items,
      f.predicted_quantity =
        predictOne model (featureVecFor (load_sales_data env)
          (promoTable env (get_date_range env.today env.config.horizon))
          f.date f.item_id) := by
    intro model items f hf
    unfold forecastRows at hf
    simp only [List.mem_flatMap, List.mem_map] at hf
    rcases hf with ⟨d, _, it, _, rfl⟩
    rfl
  refine ⟨?_, ?_, ?_⟩
  · intro f hf
    rcases generate_forecasts_char env with h | ⟨model, items, hm, hload, hitems, hne, h⟩
    · rw [h] at hf
      exact absurd hf (by simp)
    · have hres : (generate_forecasts env).result = forecastRows env model items := by
        rw [h]
        by_cases hre : (forecastRows env model items).isEmpty <;> simp [hre]
      rw [hres] at hf
      rw [hmem model items f hf]
      exact predictOne_nonneg _ _
  · intro model items hm hload hitems
    by_cases hempty : items.isEmpty
    · have : items = [] := List.isEmpty_iff.mp hempty
      subst this
      have hres : (generate_forecasts env).result = [] := by
        simp [generate_forecasts, hm, hload, hitems]
      rw [hres]
      simp
    · rw [generate_forecasts_result_main env model items hm hload hitems hempty]
      exact forecastRows_pairs env model items
  · intro model hload f hf e herr
    rcases generate_forecasts_char env with h | ⟨model', items, hm, hload', hitems, hne, h⟩
    · rw [h] at hf
      exact absurd hf (by simp)
    · have hmodel : model' = model := by
        rw [hload] at hload'
        exact (Except.ok.inj hload').symm
      subst hmodel
      have hres : (generate_forecasts env).result = forecastRows env model' items := by
        rw [h]
        by_cases hre : (forecastRows env model' items).isEmpty <;> simp [hre]
      rw [hres] at hf
      rw [hmem model' items f hf]
      unfold predictOne
      rw [herr]

/-- Witness for C9: a one-date, one-item environment whose model always
fails still yields the full (date, item) grid, with the failed prediction
substituted by 0. -/
theorem generate_forecasts_nonneg_isolated_witness :
    (generate_forecasts
      { modelExists := true
        modelLoad := .ok ⟨fun _ => .error "boom"⟩
        itemsQuery := .ok [1]
        salesReadOk := true
        promoQueryOk := true
        salesTable := []
        config := ⟨"catboost", 1⟩
        today := ⟨2024,1,1⟩
        freshRunId := "run-9" }).result.map (fun f => (f.date, f.item_id)) =
      [(⟨2024,1,1⟩, 1)] ∧
    ∀ f ∈ (generate_forecasts
      { modelExists := true
        modelLoad := .ok ⟨fun _ => .error "boom"⟩
        itemsQuery := .ok [1]
        salesReadOk := true
        promoQueryOk := true
        salesTable := []
        config := ⟨"catboost", 1⟩
        today := ⟨2024,1,1⟩
        freshRunId := "run-9" }).result,
      0 ≤ f.predicted_quantity ∧ f.predicted_quantity = 0 := by
  have h := generate_forecasts_nonneg_isolated
    { modelExists := true
      modelLoad := .ok ⟨fun _ => .error "boom"⟩
      itemsQuery := .ok [1]
      salesReadOk := true
      promoQueryOk := true
      salesTable := []
      config := ⟨"catboost", 1⟩
      today := ⟨2024,1,1⟩
      freshRunId := "run-9" }
  constructor
  · rw [h.2.1 ⟨fun _ => .error "boom"⟩ [1] rfl rfl rfl]
    decide
  · intro f hf
    exact ⟨h.1 f hf, h.2.2 ⟨fun _ => .error "boom"⟩ rfl f hf "boom" rfl⟩

/-- **C2 counterexample**: with catboost configured but unavailable and
lightgbm (the secondary family) available, `_get_model` selects the
generic ensemble (RandomForest), not the secondary family — the claim's
fallback-to-secondary behaviour does not hold. -/
theorem getModel_secondary_not_used :
    getModel ⟨false, true, true⟩ ⟨"catboost", 3⟩ = .ok .randomForest ∧
    ModelKind.randomForest ≠ ModelKind.lightgbm := by
  exact ⟨rfl, by decide⟩

/-- **C2 amended**: the configured family is used when it is available and
is catboost or lightgbm; in every other case — including a configured but
unavailable family with the other boosting family available — the generic
ensemble is used when sklearn is available; with no capability at all an
explicit configuration error is raised. -/
theorem getModel_fallback_chain (av : Availability) (cfg : Config) :
    (asciiLower cfg.modelType = "catboost" → av.catboost = true →
      getModel av cfg = .ok .catboost) ∧
    (asciiLower cfg.modelType = "lightgbm" → av.lightgbm = true →
      getModel av cfg = .ok .lightgbm) ∧
    (¬(asciiLower cfg.modelType = "catboost" ∧ av.catboost = true) →
      ¬(asciiLower cfg.modelType = "lightgbm" ∧ av.lightgbm = true) →
      av.sklearn = true → getModel av cfg = .ok .randomForest) ∧
    (¬(asciiLower cfg.modelType = "catboost" ∧ av.catboost = true) →
      ¬(asciiLower cfg.modelType = "lightgbm" ∧ av.lightgbm = true) →
      av.sklearn = false →
      getModel av cfg =
        .error "No ML library available. Please install catboost, lightgbm, or scikit-learn") := by
  have c1 : ∀ (hn : ¬(asciiLower cfg.modelType = "catboost" ∧ av.catboost = true)),
      (asciiLower cfg.modelType == "catboost" && av.catboost) = false := by
    intro hn
    cases h : (asciiLower cfg.modelType == "catboost" && av.catboost) with
    | false => rfl
    | true => exact absurd (by simpa using h) hn
  have c2 : ∀ (hn : ¬(asciiLower cfg.modelType = "lightgbm" ∧ av.lightgbm = true)),
      (asciiLower cfg.modelType == "lightgbm" && av.lightgbm) = false := by
    intro hn
    cases h : (asciiLower cfg.modelType == "lightgbm" && av.lightgbm) with
    | false => rfl
    | true => exact absurd (by simpa using h) hn
  refine ⟨?_, ?_, ?_, ?_⟩
  · intro hmt hav
    simp [getModel, hmt, hav]
  · intro hmt hav
    simp [getModel, hmt, hav]
  · intro hn1 hn2 hsk
    simp [getModel, c1 hn1, c2 hn2, hsk]
  · intro hn1 hn2 hsk
    simp [getModel, c1 hn1, c2 hn2, hsk]

/-- Witness for the amended C2: a configured `"CatBoost"` with catboost
available resolves, via lower-casing, to the catboost family. -/
theorem getModel_fallback_chain_witness :
    asciiLower "CatBoost" = "catboost" ∧
    getModel ⟨true, false, true⟩ ⟨"CatBoost", 3⟩ = .ok .catboost :=
  ⟨rfl, (getModel_fallback_chain ⟨true, false, true⟩ ⟨"CatBoost", 3⟩).1 rfl rfl⟩

/-- **C3 counterexample**: with catboost configured but only sklearn
available, training resolves to the RandomForest family, yet the metrics
summary records `model_type = "catboost"` — the configured name, not the
resolved family. -/
theorem train_model_reports_configured_not_resolved :
    train_model [] ⟨"catboost", 3⟩ ⟨false, false, true⟩ =
      .ok ⟨.randomForest, 1, ⟨0, 0, "catboost"⟩⟩ ∧
    modelKindName .randomForest ≠ "catboost" := by
  exact ⟨rfl, by decide⟩

/-- **C3 amended**: for every feature table, configuration and
availability, a successful training run yields zero-valued `mae` and
`wape` together with the configured model-type string (not the resolved
family). -/
theorem train_model_metrics (features : List FeatRow) (cfg : Config)
    (av : Availability) (out : TrainOutcome)
    (h : train_model features cfg av = .ok out) :
    out.metrics.mae = 0 ∧ out.metrics.wape = 0 ∧
    out.metrics.model_type = cfg.modelType := by
  unfold train_model at h
  cases hg : getModel av cfg with
  | error e =>
    rw [hg] at h
    exact absurd h (by simp)
  | ok kind =>
    rw [hg] at h
    simp only [Except.ok.injEq] at h
    subst h
    exact ⟨rfl, rfl, rfl⟩

/-- Witness for the amended C3 at a concrete input. -/
theorem train_model_metrics_witness :
    train_model [] ⟨"lightgbm", 3⟩ ⟨true, true, true⟩ =
      .ok ⟨.lightgbm, 1, ⟨0, 0, "lightgbm"⟩⟩ ∧
    (0 : ℚ) = 0 ∧ (0 : ℚ) = 0 ∧ "lightgbm" = "lightgbm" := by
  refine ⟨rfl, ?_⟩
  exact train_model_metrics [] ⟨"lightgbm", 3⟩ ⟨true, true, true⟩
    ⟨.lightgbm, 1, ⟨0, 0, "lightgbm"⟩⟩ rfl

/-- **C1 (code bug)**: the `daily_item_sales` table `init_database`
creates has only the columns (date, item_id, quantity); the
`promotion_discount` and `is_holiday` columns the specification — and the
repository's own ingestion INSERT and loader SELECT — expect are absent,
so those statements cannot execute against a freshly initialized
database. -/
theorem init_schema_missing_promo_holiday :
    "promotion_discount" ∈ ingest_daily_item_sales_columns ∧
    "is_holiday" ∈ ingest_daily_item_sales_columns ∧
    "promotion_discount" ∉ init_daily_item_sales_columns ∧
    "is_holiday" ∉ init_daily_item_sales_columns ∧
    sqlColumnsOk init_daily_item_sales_columns ingest_daily_item_sales_columns = false ∧
    sqlColumnsOk init_daily_item_sales_columns load_sales_referenced_columns = false ∧
    init_daily_item_sales_columns ≠ spec_daily_item_sales_columns := by
  decide

/-! ## Frame property of `build_features` -/

theorem Heap.get_alloc_lt (h : Heap) (o : PObj) (r : Nat)
    (hr : r < h.objs.length) : (h.alloc o).1.get r = h.get r := by
  unfold Heap.alloc Heap.get
  exact List.get?_append hr

theorem Heap.get_set_ne (h : Heap) (s r : Nat) (o : PObj) (hne : s ≠ r) :
    (h.set s o).get r = h.get r := by
  unfold Heap.set Heap.get
  exact List.get?_set_ne o h.objs hne

theorem Heap.get_some_lt (h : Heap) (r : Nat) (o : PObj)
    (hr : h.get r = some o) : r < h.objs.length := by
  unfold Heap.get at hr
  by_contra hc
  rw [List.get?_eq_none.mpr (by omega)] at hr
  exact Option.noConfusion hr

theorem Heap.alloc_length (h : Heap) (o : PObj) :
    (h.alloc o).1.objs.length = h.objs.length + 1 := by
  unfold Heap.alloc
  simp

theorem Heap.set_length (h : Heap) (s : Nat) (o : PObj) :
    (h.set s o).objs.length = h.objs.length := by
  unfold Heap.set
  exact List.length_set h.objs s o

theorem Heap.get_alloc_self (h : Heap) (o : PObj) :
    (h.alloc o).1.get (h.alloc o).2 = some o := by
  unfold Heap.alloc Heap.get
  rw [List.get?_append_right (le_refl _)]
  simp

/-- **C10**: `build_features` never modifies its input frame: whatever
object the input reference points at before the call, it points at the
identical object afterwards — every in-place mutation of the source acts
on copies allocated inside the call. -/
theorem build_features_st_frame (h0 : Heap) (inRef : Nat) :
    (build_features_st h0 inRef).1.get inRef = h0.get inRef := by
  unfold build_features_st
  cases hg : h0.get inRef with
  | none => exact hg
  | some o =>
    cases o with
    | feat rows => exact hg
    | sales T =>
      have hlt : inRef < h0.objs.length := Heap.get_some_lt h0 inRef _ hg
      by_cases he : T.rows.isEmpty
      · simp only [he, if_true]
        rw [Heap.get_alloc_lt h0 _ inRef hlt]
        exact hg
      · simp only [he, Bool.false_eq_true, if_false]
        have l1 : (h0.alloc (PObj.sales T)).1.objs.length = h0.objs.length + 1 :=
          Heap.alloc_length h0 _
        -- line 43 copy: leaves the input untouched
        have s1 : (h0.alloc (PObj.sales T)).1.get inRef = h0.get inRef :=
          Heap.get_alloc_lt h0 _ inRef hlt
        -- line 44 in-place date write: hits the copy's fresh reference
        have s2 : ((h0.alloc (PObj.sales T)).1.set (h0.alloc (PObj.sales T)).2
            (PObj.sales T)).get inRef = (h0.alloc (PObj.sales T)).1.get inRef := by
          apply Heap.get_set_ne
          show h0.objs.length ≠ inRef
          omega
        have l2 : ((h0.alloc (PObj.sales T)).1.set (h0.alloc (PObj.sales T)).2
            (PObj.sales T)).objs.length = h0.objs.length + 1 := by
          rw [Heap.set_length, l1]
        -- line 47: the sorted frame is a fresh allocation
        have s3 := Heap.get_alloc_lt
          ((h0.alloc (PObj.sales T)).1.set (h0.alloc (PObj.sales T)).2 (PObj.sales T))
          (PObj.sales { T with rows := stableSort rowKeyLt T.rows }) inRef
          (by rw [l2]; omega)
        have l3 := Heap.alloc_length
          ((h0.alloc (PObj.sales T)).1.set (h0.alloc (PObj.sales T)).2 (PObj.sales T))
          (PObj.sales { T with rows := stableSort rowKeyLt T.rows })
        -- lines 56–92: the feature frame is a fresh allocation
        have s4 := Heap.get_alloc_lt
          (((h0.alloc (PObj.sales T)).1.set (h0.alloc (PObj.sales T)).2
            (PObj.sales T)).alloc
            (PObj.sales { T with rows := stableSort rowKeyLt T.rows })).1
          (PObj.feat (buildLoop T.hasPromo T.hasHoliday (fun _ => [])
            (stableSort rowKeyLt T.rows))) inRef
          (by rw [l3, l2]; omega)
        rw [s4, s3, s2, s1]
        exact hg

/-- The heap-traced `build_features` computes the same feature rows as the
pure one: the returned reference points at `build_features` of the input
table. -/
theorem build_features_st_agrees (h0 : Heap) (inRef : Nat) (T : SalesTable)
    (cfg : Config) (hg : h0.get inRef = some (PObj.sales T)) :
    ∃ outRef, (build_features_st h0 inRef).2 = some outRef ∧
      (build_features_st h0 inRef).1.get outRef =
        some (PObj.feat (build_features T cfg)) := by
  unfold build_features_st
  rw [hg]
  by_cases he : T.rows.isEmpty
  · simp only [he, if_true]
    refine ⟨(h0.alloc (PObj.feat [])).2, rfl, ?_⟩
    have hempty : build_features T cfg = [] := by
      unfold build_features
      rw [if_pos he]
    rw [hempty]
    exact Heap.get_alloc_self h0 _
  · simp only [he, Bool.false_eq_true, if_false]
    refine ⟨_, rfl, ?_⟩
    have hmain : build_features T cfg =
        buildLoop T.hasPromo T.hasHoliday (fun _ => []) (stableSort rowKeyLt T.rows) := by
      unfold build_features
      rw [if_neg he]
    rw [hmain]
    exact Heap.get_alloc_self _ _
